import Mathlib

/-!
Verification of the shunting-yard expression parser in `src/shuntingyard.rs`.

The parser is embedded shallowly: the Rust enums become inductive types, the
mutable `ShuntingYard` struct becomes an explicit state record threaded
through the functions, and the `while` loops and the mutual recursion
`parse_e`/`parse_p` become fuel-indexed recursive functions.  Rust `panic!`,
`assert_eq!` and `Option::unwrap` failures are modelled as a distinguished
`PRes.panicked` outcome carrying a structured `Panic` value, so that
reachability of each panic site can be stated and settled.  Fuel exhaustion
is a separate outcome `PRes.nofuel`; it is never confused with any behaviour
of the source program.

Stacks are Lean lists whose head is the Rust `Vec` top (`last()`), so
`push` is `cons` and `pop` takes the head.
-/

/-- Modelled from the spec (the lexer is an external collaborator, not part of
`src/`): token kinds `{Number, Identifier, SingleCharOperator, End}`.
Rust's `TokenType<'a>` with a numeric payload, a name payload, a char payload,
or nothing. -/
inductive TokenType where
  | Number (v : Nat)
  | Ident (name : String)
  | OpSingle (c : Char)
  | End
  deriving DecidableEq, Repr

/-- Modelled from the spec: a token is a kind together with its source
position (char offset), mirroring Rust's `Token { typ, pos }`. -/
structure Token where
  typ : TokenType
  pos : Nat
  deriving DecidableEq, Repr

/-- Modelled from the spec (the AST lives in the external `ast` module):
tagged tree nodes, each carrying its originating source position.
`Pre`/`Post` model the Rust variants `Prefix`/`Postfix`; `Parens` models
`Parenthesized`.  Rust's `AstNode::new(typ, pos)` is the constructor with
`pos` as last argument. -/
inductive AstNode where
  | Number (v : Nat) (pos : Nat)
  | Ident (name : String) (pos : Nat)
  | Binary (c : Char) (l : AstNode) (r : AstNode) (pos : Nat)
  | Pre (c : Char) (t : AstNode) (pos : Nat)
  | Post (c : Char) (t : AstNode) (pos : Nat)
  | Parens (t : AstNode) (pos : Nat)
  deriving DecidableEq, Repr

/-- The internal operator-stack entries, Rust's `enum Op`.  `Pre`/`Post`
model the variants `Prefix`/`Postfix`. -/
inductive Op where
  | Sentinel (pos : Nat)
  | Binary (c : Char) (pos : Nat)
  | Pre (c : Char) (pos : Nat)
  | Post (c : Char) (pos : Nat)
  deriving DecidableEq, Repr

/-- Rust's `enum Assoc { Left, Right }`. -/
inductive Assoc where
  | Left
  | Right
  deriving DecidableEq, Repr

/-- Modelled from the spec (the error type lives in the external `error`
module): Rust builds `ParseError::Parse(format!(..))` strings; each
constructor here records exactly the data interpolated into the corresponding
`format!` call, so "the payload contains X" is decidable.
`Expected e a p` ~ "Expected {e} of expression, but got {a} at position {p}"
(from `expect`); `ExpectedUnary c` ~ "Expected unary operator, but got {c}"
(from `parse_p`, note: no position); `UnexpectedToken t` ~
"Unexpected token {t}" (from `parse_p`, the token includes its position). -/
inductive ParseError where
  | Expected (expected : TokenType) (actual : TokenType) (pos : Nat)
  | ExpectedUnary (actual : Char)
  | UnexpectedToken (t : Token)
  deriving DecidableEq, Repr

/-- The panic sites of `shuntingyard.rs`, one constructor per site:
`sentinelPop` is the `Op::Sentinel` arm of `pop_operator`; `emptyPop` is any
`Vec::pop().unwrap()` / `last().unwrap()` on an empty stack; `assertExpLen`
and `assertOpLen` are the two `assert_eq!` in `ShuntingYard::parse`;
`assocNone` is the `panic!("Operator .. does not have associativity")` in
`assoc`; `assocUnknownChar` is the `assert!` inside `assoc`; `precUnknown`
is the catch-all `panic!` in `prec`. -/
inductive Panic where
  | sentinelPop (pos : Nat)
  | emptyPop
  | assertExpLen (n : Nat)
  | assertOpLen (n : Nat)
  | assocNone (op : Op)
  | assocUnknownChar (c : Char)
  | precUnknown (op : Op)
  deriving DecidableEq, Repr

/-- Outcome of running (a piece of) the parser: `ok` is Rust `Ok`, `err` is
Rust `Err(ParseError)` (propagated by `try!`), `panicked` is a Rust panic,
and `nofuel` is the model-only fuel-exhaustion outcome. -/
inductive PRes (α : Type) where
  | ok (a : α)
  | err (e : ParseError)
  | panicked (p : Panic)
  | nofuel
  deriving DecidableEq, Repr

/-- Rust's `try!` / `?` propagation: continue on `ok`, pass every other
outcome (parse error, panic, fuel exhaustion) through unchanged. -/
def pbind {α β : Type} : PRes α → (α → PRes β) → PRes β
  | PRes.ok a, f => f a
  | PRes.err e, _ => PRes.err e
  | PRes.panicked p, _ => PRes.panicked p
  | PRes.nofuel, _ => PRes.nofuel

/-- Rust `OPS_BINARY: [char; 5]`. -/
def OPS_BINARY : List Char := ['+', '-', '*', '/', '^']

/-- Rust `OPS_PREFIX: [char; 1]` (renamed; the source array holds the unary
operators). -/
def OPS_PRE : List Char := ['-']

/-- Rust `is_binary`. -/
def is_binary (c : Char) : Bool := OPS_BINARY.contains c

/-- Rust `is_prefix` (renamed). -/
def is_pre (c : Char) : Bool := OPS_PRE.contains c

/-- Rust `is_sentinel`, taking the `Option<&Op>` produced by `Vec::last`. -/
def is_sentinel : Option Op → Bool
  | some (Op.Sentinel _) => true
  | _ => false

/-- Rust `assoc`: only `Binary` operators have an associativity; `'^'` is
right-associative, the other four known chars are left-associative (after an
`assert!`); everything else panics. -/
def assoc (op : Op) : PRes Assoc :=
  match op with
  | Op.Binary c _ =>
    if c = '^' then PRes.ok Assoc.Right
    else if ['+', '-', '*', '/'].contains c then PRes.ok Assoc.Left
    else PRes.panicked (Panic.assocUnknownChar c)
  | _ => PRes.panicked (Panic.assocNone op)

/-- Rust `prec`: Sentinel 0, binary `+ -` 1, `* /` 2, unary `-` 3, `^` 4,
anything else panics. -/
def prec (op : Op) : PRes Int :=
  match op with
  | Op.Sentinel _ => PRes.ok 0
  | Op.Binary c p =>
    if c = '+' ∨ c = '-' then PRes.ok 1
    else if c = '*' ∨ c = '/' then PRes.ok 2
    else if c = '^' then PRes.ok 4
    else PRes.panicked (Panic.precUnknown (Op.Binary c p))
  | Op.Pre c p =>
    if c = '-' then PRes.ok 3 else PRes.panicked (Panic.precUnknown (Op.Pre c p))
  | Op.Post c p => PRes.panicked (Panic.precUnknown (Op.Post c p))

/-- Rust `has_greater_prec`:
`prec(op1) > prec(op2) || (prec(op1) == prec(op2) && assoc(op1) == Left)`,
with `&&`/`||` short-circuiting, so `assoc op1` is evaluated only on equal
precedences. -/
def has_greater_prec (op1 op2 : Op) : PRes Bool :=
  pbind (prec op1) (fun prec1 =>
    pbind (prec op2) (fun prec2 =>
      if prec1 > prec2 then PRes.ok true
      else if prec1 = prec2 then
        pbind (assoc op1) (fun a => PRes.ok (a == Assoc.Left))
      else PRes.ok false))

/-- The `ShuntingYard` struct: the unconsumed token stream (standing for the
lexer), the lookahead `next`, and the two stacks (list head = `Vec` top). -/
structure SYState where
  rest : List Token
  next : Token
  op_stack : List Op
  exp_stack : List AstNode
  deriving DecidableEq, Repr

/-- Modelled from the spec: the external lexer's `next_token`, over the
pre-tokenized stream.  A well-formed stream ends with an `End` token; once
exhausted the lexer keeps yielding `End` (at the last seen position).
Lexical failures are out of scope: every stream considered here tokenizes. -/
def next_token (s : SYState) : Token × List Token :=
  match s.rest with
  | [] => (⟨TokenType.End, s.next.pos⟩, [])
  | t :: ts => (t, ts)

/-- Rust `consume`: advance the lookahead. -/
def consume (s : SYState) : SYState :=
  { s with next := (next_token s).1, rest := (next_token s).2 }

/-- Rust `expect`: succeed and advance iff the lookahead's type matches
exactly; otherwise a `ParseError` naming expected type, actual type and
position. -/
def expect (tt : TokenType) (s : SYState) : PRes SYState :=
  if s.next.typ = tt then PRes.ok (consume s)
  else PRes.err (ParseError.Expected tt s.next.typ s.next.pos)

/-- Rust `pop_operator`: pop one operator and its operand(s), push the built
node.  As in the source, the operator and the first operand are popped before
the operator is inspected, so an empty stack panics (`unwrap`) before the
Sentinel arm can. -/
def pop_operator (s : SYState) : PRes SYState :=
  match s.op_stack with
  | [] => PRes.panicked Panic.emptyPop
  | op :: ops =>
    match s.exp_stack with
    | [] => PRes.panicked Panic.emptyPop
    | t :: exps =>
      match op with
      | Op.Binary c pos =>
        match exps with
        | [] => PRes.panicked Panic.emptyPop
        | t0 :: exps0 =>
          PRes.ok { s with op_stack := ops,
                           exp_stack := AstNode.Binary c t0 t pos :: exps0 }
      | Op.Pre c pos =>
        PRes.ok { s with op_stack := ops, exp_stack := AstNode.Pre c t pos :: exps }
      | Op.Post c pos =>
        PRes.ok { s with op_stack := ops, exp_stack := AstNode.Post c t pos :: exps }
      | Op.Sentinel pos => PRes.panicked (Panic.sentinelPop pos)

/-- Rust `push_operator`: `while has_greater_prec(top_operator(), &op)
{ pop_operator() }` then push `op`.  `top_operator` is `last().unwrap()`.
The loop is fuel-indexed; each iteration shortens the operator stack. -/
def push_operator : Nat → Op → SYState → PRes SYState
  | 0, _, _ => PRes.nofuel
  | Nat.succ n, op, s =>
    match s.op_stack with
    | [] => PRes.panicked Panic.emptyPop
    | top :: _ =>
      pbind (has_greater_prec top op) (fun b =>
        if b then pbind (pop_operator s) (fun s2 => push_operator n op s2)
        else PRes.ok { s with op_stack := op :: s.op_stack })

/-- The unwind loop closing Rust `parse_e`:
`while !is_sentinel(op_stack.last()) { pop_operator() }`. -/
def unwind : Nat → SYState → PRes SYState
  | 0, _ => PRes.nofuel
  | Nat.succ n, s =>
    if is_sentinel s.op_stack.head? then PRes.ok s
    else pbind (pop_operator s) (fun s2 => unwind n s2)

mutual

/-- Rust `parse_e`: one `parse_p`, then the binary-operator loop, then the
unwind down to the nearest Sentinel. -/
def parse_e : Nat → SYState → PRes SYState
  | 0, _ => PRes.nofuel
  | Nat.succ n, s =>
    pbind (parse_p n s) (fun s1 =>
      pbind (parse_e_loop n s1) (fun s2 => unwind (Nat.succ n) s2))

/-- The `while let` loop of Rust `parse_e`: while the lookahead is a
single-char operator and `is_binary` holds, `push_operator`, `consume`,
`parse_p`. -/
def parse_e_loop : Nat → SYState → PRes SYState
  | 0, _ => PRes.nofuel
  | Nat.succ n, s =>
    match s.next with
    | ⟨TokenType.OpSingle c, pos⟩ =>
      if is_binary c then
        pbind (push_operator (Nat.succ n) (Op.Binary c pos) s) (fun s1 =>
          pbind (parse_p n (consume s1)) (fun s2 => parse_e_loop n s2))
      else PRes.ok s
    | _ => PRes.ok s

/-- Rust `parse_p`: number and identifier push a node and advance; `'('`
pushes a Sentinel, parses a full `E`, expects `')'`, pops the Sentinel and
wraps the reduced node in `Parens` carrying the `'('` position; any other
single-char operator must satisfy `is_prefix` and is pushed as a unary
operator followed by a recursive `parse_p`; anything else (the `End` token)
is an "Unexpected token" error. -/
def parse_p : Nat → SYState → PRes SYState
  | 0, _ => PRes.nofuel
  | Nat.succ n, s =>
    match s.next with
    | ⟨TokenType.Number v, pos⟩ =>
      PRes.ok (consume { s with exp_stack := AstNode.Number v pos :: s.exp_stack })
    | ⟨TokenType.Ident name, pos⟩ =>
      PRes.ok (consume { s with exp_stack := AstNode.Ident name pos :: s.exp_stack })
    | ⟨TokenType.OpSingle c, pos⟩ =>
      if c = '(' then
        pbind (parse_e n { consume s with op_stack := Op.Sentinel pos :: (consume s).op_stack })
          (fun s3 =>
            pbind (expect (TokenType.OpSingle ')') s3) (fun s4 =>
              match s4.op_stack with
              | [] => PRes.panicked Panic.emptyPop
              | _ :: ops =>
                match s4.exp_stack with
                | [] => PRes.panicked Panic.emptyPop
                | t :: exps =>
                  PRes.ok { s4 with op_stack := ops,
                                    exp_stack := AstNode.Parens t pos :: exps }))
      else if is_pre c then
        pbind (push_operator (Nat.succ n) (Op.Pre c pos) s) (fun s1 => parse_p n (consume s1))
      else PRes.err (ParseError.ExpectedUnary c)
    | ⟨TokenType.End, _⟩ => PRes.err (ParseError.UnexpectedToken s.next)

end

/-- Rust `ShuntingYard::parse`: `parse_e`, `expect(End)`, then the two
`assert_eq!` (stack sizes 1) and `exp_stack.pop().unwrap()`. -/
def parseSY (fuel : Nat) (s : SYState) : PRes AstNode :=
  pbind (parse_e fuel s) (fun s1 =>
    pbind (expect TokenType.End s1) (fun s2 =>
      if s2.exp_stack.length = 1 then
        if s2.op_stack.length = 1 then
          match s2.exp_stack with
          | t :: _ => PRes.ok t
          | [] => PRes.panicked Panic.emptyPop
        else PRes.panicked (Panic.assertOpLen s2.op_stack.length)
      else PRes.panicked (Panic.assertExpLen s2.exp_stack.length)))

/-- Rust `u32::max_value()`, the position stored in the outermost Sentinel. -/
def u32MAX : Nat := 4294967295

/-- The initial `ShuntingYard` built by the free function `parse`: lookahead
primed with the first token, operator stack seeded with the outer Sentinel,
empty expression stack. -/
def initState (toks : List Token) : SYState :=
  match toks with
  | [] => ⟨[], ⟨TokenType.End, 0⟩, [Op.Sentinel u32MAX], []⟩
  | t :: ts => ⟨ts, t, [Op.Sentinel u32MAX], []⟩

/-- The parser run on a pre-tokenized stream. -/
def parseTokens (fuel : Nat) (toks : List Token) : PRes AstNode :=
  parseSY fuel (initState toks)

/-- Modelled from the spec: numeric value of a digit string. -/
def natOfDigits (ds : List Char) : Nat :=
  ds.foldl (fun a c => a * 10 + (c.toNat - 48)) 0

/-- Modelled from the spec (the lexer is external to `src/`): tokenization of
the input text — maximal digit runs become `Number`, maximal letter runs
become `Ident`, blanks are skipped, any other char is a single-char operator,
and an explicit `End` token carries the end-of-input position.  Positions are
char offsets.  The first argument is fuel making the recursion structural
(each step consumes at least one char, so `length + 1` always suffices, see
`tokenize`); on exhaustion the stream is closed with an `End` token. -/
def tokenizeChars : Nat → List Char → Nat → List Token
  | 0, _, pos => [⟨TokenType.End, pos⟩]
  | _ + 1, [], pos => [⟨TokenType.End, pos⟩]
  | f + 1, c :: cs, pos =>
    if c = ' ' then tokenizeChars f cs (pos + 1)
    else if c.isDigit then
      ⟨TokenType.Number (natOfDigits (List.takeWhile Char.isDigit (c :: cs))), pos⟩ ::
        tokenizeChars f (List.dropWhile Char.isDigit (c :: cs))
          (pos + (List.takeWhile Char.isDigit (c :: cs)).length)
    else if c.isAlpha then
      ⟨TokenType.Ident (String.mk (List.takeWhile Char.isAlpha (c :: cs))), pos⟩ ::
        tokenizeChars f (List.dropWhile Char.isAlpha (c :: cs))
          (pos + (List.takeWhile Char.isAlpha (c :: cs)).length)
    else ⟨TokenType.OpSingle c, pos⟩ :: tokenizeChars f cs (pos + 1)

/-- Modelled from the spec: tokenize a whole text (with always-sufficient
fuel, since every `tokenizeChars` step consumes at least one char). -/
def tokenize (text : String) : List Token :=
  tokenizeChars (text.toList.length + 1) text.toList 0

/-- Rust's public `parse(text)`: tokenize (modelled lexer) and run the
shunting-yard engine. -/
def parse (fuel : Nat) (text : String) : PRes AstNode :=
  parseTokens fuel (tokenize text)

/-- True exactly for the panic sites named by the parser's internal
consistency checks: the Sentinel arm of `pop_operator` and the two
`assert_eq!` at the end of `ShuntingYard::parse`. -/
def isCheckFailure : Panic → Bool
  | Panic.sentinelPop _ => true
  | Panic.assertExpLen _ => true
  | Panic.assertOpLen _ => true
  | _ => false

/-- Number of `Binary` operators on an operator stack. -/
def binCount : List Op → Nat
  | [] => 0
  | Op.Binary _ _ :: ops => binCount ops + 1
  | _ :: ops => binCount ops

/-- Contribution of one pushed operator to `binCount`. -/
def binInc : Op → Int
  | Op.Binary _ _ => 1
  | _ => 0

/-- The conserved quantity of the shunting-yard engine: expression-stack
height minus the number of `Binary` operators still on the operator stack.
Every `pop_operator` preserves it; every completed `P` adds one; every pushed
binary operator subtracts one. -/
def stackQ (s : SYState) : Int :=
  (s.exp_stack.length : Int) - (binCount s.op_stack : Int)

/-- A stack segment containing no Sentinel. -/
def noSentinel (B : List Op) : Prop := ∀ q : Nat, Op.Sentinel q ∉ B

/-- Hoare-style postcondition on a parser outcome: the post holds of any `ok`
state, and any panic is not one of the internal-consistency check failures;
`err` and `nofuel` outcomes are unconstrained. -/
def ResSpec (r : PRes SYState) (post : SYState → Prop) : Prop :=
  (∀ s, r = PRes.ok s → post s) ∧
  (∀ pc, r = PRes.panicked pc → isCheckFailure pc = false)

/-- Position-erased tree shapes, used to compare a parse result against a
tree the specification describes without fixing source positions. -/
inductive Sh where
  | num (v : Nat)
  | ident (name : String)
  | bin (c : Char) (l : Sh) (r : Sh)
  | pre (c : Char) (t : Sh)
  | post (c : Char) (t : Sh)
  | parens (t : Sh)
  deriving DecidableEq, Repr

/-- Erase positions from an AST. -/
def shapeOf : AstNode → Sh
  | AstNode.Number v _ => Sh.num v
  | AstNode.Ident name _ => Sh.ident name
  | AstNode.Binary c l r _ => Sh.bin c (shapeOf l) (shapeOf r)
  | AstNode.Pre c t _ => Sh.pre c (shapeOf t)
  | AstNode.Post c t _ => Sh.post c (shapeOf t)
  | AstNode.Parens t _ => Sh.parens (shapeOf t)

/-- The shape of a successful parse, if any. -/
def parsedShape (fuel : Nat) (text : String) : Option Sh :=
  match parse fuel text with
  | PRes.ok t => some (shapeOf t)
  | _ => none

/-- Concrete parser state whose lookahead is `Number 5` at position 4
(the state reached by `parse "3+4 5"` before the final `expect`). -/
def w9s1 : SYState := ⟨[], ⟨TokenType.Number 5, 4⟩, [Op.Sentinel u32MAX], []⟩

/-- Concrete parser state whose lookahead is the operator `'+'`. -/
def w9s2 : SYState := ⟨[], ⟨TokenType.OpSingle '+', 0⟩, [Op.Sentinel u32MAX], []⟩

/-- Concrete parser state whose lookahead is `End` at position 7. -/
def w9s3 : SYState := ⟨[], ⟨TokenType.End, 7⟩, [Op.Sentinel u32MAX], []⟩

theorem pbind_ok {α β : Type} (a : α) (f : α → PRes β) : pbind (PRes.ok a) f = f a := rfl

theorem pbind_err {α β : Type} (e : ParseError) (f : α → PRes β) :
    pbind (PRes.err e) f = PRes.err e := rfl

theorem pbind_panicked {α β : Type} (p : Panic) (f : α → PRes β) :
    pbind (PRes.panicked p) f = PRes.panicked p := rfl

theorem pbind_nofuel {α β : Type} (f : α → PRes β) :
    pbind (PRes.nofuel : PRes α) f = PRes.nofuel := rfl

theorem ResSpec_ok {s : SYState} {post : SYState → Prop} (h : post s) :
    ResSpec (PRes.ok s) post :=
  ⟨fun s2 hh => by injection hh with h2; exact h2 ▸ h, fun _ hh => PRes.noConfusion hh⟩

theorem ResSpec_err {e : ParseError} {post : SYState → Prop} : ResSpec (PRes.err e) post :=
  ⟨fun _ hh => PRes.noConfusion hh, fun _ hh => PRes.noConfusion hh⟩

theorem ResSpec_nofuel {post : SYState → Prop} : ResSpec PRes.nofuel post :=
  ⟨fun _ hh => PRes.noConfusion hh, fun _ hh => PRes.noConfusion hh⟩

theorem ResSpec_panicked {pc : Panic} {post : SYState → Prop}
    (h : isCheckFailure pc = false) : ResSpec (PRes.panicked pc) post :=
  ⟨fun _ hh => PRes.noConfusion hh, fun pc2 hh => by injection hh with h2; exact h2 ▸ h⟩

theorem ResSpec_mono {r : PRes SYState} {post1 post2 : SYState → Prop}
    (h : ResSpec r post1) (himp : ∀ s, post1 s → post2 s) : ResSpec r post2 :=
  ⟨fun s hh => himp s (h.1 s hh), h.2⟩

theorem consume_op_stack (s : SYState) : (consume s).op_stack = s.op_stack := rfl

theorem consume_exp_stack (s : SYState) : (consume s).exp_stack = s.exp_stack := rfl

theorem stackQ_consume (s : SYState) : stackQ (consume s) = stackQ s := rfl

theorem binCount_cons_int (op : Op) (l : List Op) :
    (binCount (op :: l) : Int) = (binCount l : Int) + binInc op := by
  cases op <;> simp [binCount, binInc]

theorem binCount_sentinel (p : Nat) (l : List Op) :
    binCount (Op.Sentinel p :: l) = binCount l := rfl

theorem noSentinel_nil : noSentinel [] := fun _ h => (List.not_mem_nil _ h)

theorem noSentinel_cons_head {op : Op} {B : List Op} (h : noSentinel (op :: B)) :
    ∀ q : Nat, op ≠ Op.Sentinel q := fun q hc => h q (hc ▸ List.mem_cons_self op B)

theorem noSentinel_cons_tail {op : Op} {B : List Op} (h : noSentinel (op :: B)) :
    noSentinel B := fun q hq => h q (List.mem_cons_of_mem op hq)

theorem noSentinel_cons {op : Op} {B : List Op} (h1 : ∀ q : Nat, op ≠ Op.Sentinel q)
    (h2 : noSentinel B) : noSentinel (op :: B) := by
  intro q hq
  rcases List.mem_cons.mp hq with h | h
  · exact h1 q h.symm
  · exact h2 q h

theorem is_sentinel_false {op : Op} (h : ∀ q : Nat, op ≠ Op.Sentinel q) :
    is_sentinel (some op) = false := by
  cases op with
  | Sentinel q => exact absurd rfl (h q)
  | Binary c p => rfl
  | Pre c p => rfl
  | Post c p => rfl

theorem expect_cases (tt : TokenType) (s : SYState) :
    expect tt s = PRes.ok (consume s) ∨ ∃ e, expect tt s = PRes.err e := by
  unfold expect
  split_ifs
  · exact Or.inl rfl
  · exact Or.inr ⟨_, rfl⟩
theorem prec_not_cf {op : Op} {pc : Panic} (h : prec op = PRes.panicked pc) :
    isCheckFailure pc = false := by
  cases op with
  | Sentinel p => exact PRes.noConfusion h
  | Binary c p =>
    simp only [prec] at h
    split_ifs at h
    all_goals
      first
        | exact PRes.noConfusion h
        | (injection h with h4; exact h4 ▸ rfl)
  | Pre c p =>
    simp only [prec] at h
    split_ifs at h
    all_goals
      first
        | exact PRes.noConfusion h
        | (injection h with h4; exact h4 ▸ rfl)
  | Post c p =>
    injection h with h4
    exact h4 ▸ rfl

theorem assoc_not_cf {op : Op} {pc : Panic} (h : assoc op = PRes.panicked pc) :
    isCheckFailure pc = false := by
  cases op with
  | Binary c p =>
    simp only [assoc] at h
    split_ifs at h
    all_goals
      first
        | exact PRes.noConfusion h
        | (injection h with h4; exact h4 ▸ rfl)
  | Sentinel p => injection h with h4; exact h4 ▸ rfl
  | Pre c p => injection h with h4; exact h4 ▸ rfl
  | Post c p => injection h with h4; exact h4 ▸ rfl

theorem hgp_not_cf {o1 o2 : Op} {pc : Panic}
    (h : has_greater_prec o1 o2 = PRes.panicked pc) : isCheckFailure pc = false := by
  unfold has_greater_prec at h
  cases h1 : prec o1 with
  | ok q1 =>
    rw [h1, pbind_ok] at h
    cases h2 : prec o2 with
    | ok q2 =>
      rw [h2, pbind_ok] at h
      split_ifs at h
      all_goals
        first
          | exact PRes.noConfusion h
          | (cases h3 : assoc o1 with
             | ok a => rw [h3, pbind_ok] at h; exact PRes.noConfusion h
             | err e => rw [h3, pbind_err] at h; exact PRes.noConfusion h
             | panicked pa =>
                 rw [h3, pbind_panicked] at h
                 injection h with h4
                 exact h4 ▸ assoc_not_cf h3
             | nofuel => rw [h3, pbind_nofuel] at h; exact PRes.noConfusion h)
    | err e => rw [h2, pbind_err] at h; exact PRes.noConfusion h
    | panicked pa =>
      rw [h2, pbind_panicked] at h
      injection h with h4
      exact h4 ▸ prec_not_cf h2
    | nofuel => rw [h2, pbind_nofuel] at h; exact PRes.noConfusion h
  | err e => rw [h1, pbind_err] at h; exact PRes.noConfusion h
  | panicked pa =>
    rw [h1, pbind_panicked] at h
    injection h with h4
    exact h4 ▸ prec_not_cf h1
  | nofuel => rw [h1, pbind_nofuel] at h; exact PRes.noConfusion h


theorem ResSpec_bind {r : PRes SYState} {f : SYState → PRes SYState}
    {post1 post : SYState → Prop} (h1 : ResSpec r post1)
    (h2 : ∀ s, r = PRes.ok s → post1 s → ResSpec (f s) post) :
    ResSpec (pbind r f) post := by
  cases r with
  | ok s => exact h2 s rfl (h1.1 s rfl)
  | err e => exact ResSpec_err
  | panicked pc => exact ResSpec_panicked (h1.2 pc rfl)
  | nofuel => exact ResSpec_nofuel

theorem pop_spec {s : SYState} {t : Op} {T : List Op}
    (hs : s.op_stack = t :: T) (hns : ∀ q : Nat, t ≠ Op.Sentinel q) :
    ResSpec (pop_operator s) (fun s2 => s2.op_stack = T ∧ stackQ s2 = stackQ s) := by
  obtain ⟨rest, nx, OS, E⟩ := s
  simp only at hs
  subst hs
  cases E with
  | nil => exact ResSpec_panicked rfl
  | cons t1 exps =>
    cases t with
    | Sentinel q => exact absurd rfl (hns q)
    | Binary c p =>
      cases exps with
      | nil => exact ResSpec_panicked rfl
      | cons t0 exps0 =>
        apply ResSpec_ok
        refine ⟨rfl, ?_⟩
        simp only [stackQ, binCount, List.length_cons]
        push_cast
        ring
    | Pre c p =>
      apply ResSpec_ok
      refine ⟨rfl, ?_⟩
      simp [stackQ, binCount]
    | Post c p =>
      apply ResSpec_ok
      refine ⟨rfl, ?_⟩
      simp [stackQ, binCount]

theorem hgp_sentinel {op : Op} {q : Int} (hq : prec op = PRes.ok q) (hq1 : 1 ≤ q)
    (p' : Nat) : has_greater_prec (Op.Sentinel p') op = PRes.ok false := by
  unfold has_greater_prec
  have h0 : prec (Op.Sentinel p') = PRes.ok 0 := rfl
  rw [h0, pbind_ok, hq, pbind_ok, if_neg (by omega), if_neg (by omega)]

theorem push_spec : ∀ (f : Nat) (op : Op) (q : Int), prec op = PRes.ok q → 1 ≤ q →
    ∀ (s : SYState) (B R : List Op) (p : Nat), s.op_stack = B ++ Op.Sentinel p :: R →
    noSentinel B →
    ResSpec (push_operator f op s)
      (fun s2 => ∃ B2, s2.op_stack = op :: (B2 ++ Op.Sentinel p :: R) ∧ noSentinel B2 ∧
        stackQ s2 = stackQ s - binInc op) := by
  intro f
  induction f with
  | zero => intro op q hq hq1 s B R p hs hB; exact ResSpec_nofuel
  | succ n ih =>
    intro op q hq hq1 s B R p hs hB
    cases B with
    | nil =>
      simp only [List.nil_append] at hs
      obtain ⟨rest, nx, OS, E⟩ := s
      simp only at hs
      subst hs
      simp only [push_operator, hgp_sentinel hq hq1, pbind_ok, Bool.false_eq_true, if_false]
      apply ResSpec_ok
      refine ⟨[], rfl, noSentinel_nil, ?_⟩
      simp only [stackQ, List.nil_append]
      rw [binCount_cons_int]
      ring
    | cons top B' =>
      have htop := noSentinel_cons_head hB
      obtain ⟨rest, nx, OS, E⟩ := s
      simp only at hs
      subst hs
      simp only [push_operator, List.cons_append]
      cases hg : has_greater_prec top op with
      | ok b =>
        cases b with
        | false =>
          rw [pbind_ok, if_neg (by simp)]
          apply ResSpec_ok
          refine ⟨top :: B', by simp, hB, ?_⟩
          simp only [stackQ]
          rw [binCount_cons_int]
          ring
        | true =>
          rw [pbind_ok, if_pos rfl]
          apply ResSpec_bind (pop_spec (t := top) (T := B' ++ Op.Sentinel p :: R) rfl htop)
          rintro s2 heq ⟨ho2, hQ2⟩
          refine ResSpec_mono (ih op q hq hq1 s2 B' R p ho2 (noSentinel_cons_tail hB)) ?_
          rintro s3 ⟨B2, a, b, c⟩
          exact ⟨B2, a, b, by rw [c, hQ2]⟩
      | err e => exact ResSpec_err
      | panicked pc => exact ResSpec_panicked (hgp_not_cf hg)
      | nofuel => exact ResSpec_nofuel

theorem unwind_spec : ∀ (f : Nat) (s : SYState) (B R : List Op) (p : Nat),
    s.op_stack = B ++ Op.Sentinel p :: R → noSentinel B →
    ResSpec (unwind f s)
      (fun s2 => s2.op_stack = Op.Sentinel p :: R ∧ stackQ s2 = stackQ s) := by
  intro f
  induction f with
  | zero => intro s B R p hs hB; exact ResSpec_nofuel
  | succ n ih =>
    intro s B R p hs hB
    simp only [unwind]
    cases B with
    | nil =>
      simp only [List.nil_append] at hs
      rw [hs]
      simp only [List.head?_cons, is_sentinel, if_true]
      exact ResSpec_ok ⟨hs, rfl⟩
    | cons top B' =>
      have htop := noSentinel_cons_head hB
      rw [hs]
      simp only [List.cons_append, List.head?_cons, is_sentinel_false htop,
        Bool.false_eq_true, if_false]
      apply ResSpec_bind (pop_spec (s := s) (t := top) (T := B' ++ Op.Sentinel p :: R)
        (by rw [hs]; simp) htop)
      rintro s2 heq ⟨ho2, hQ2⟩
      refine ResSpec_mono (ih s2 B' R p ho2 (noSentinel_cons_tail hB)) ?_
      rintro s3 ⟨a, b⟩
      exact ⟨a, by rw [b, hQ2]⟩

theorem prec_binary {c : Char} (pos : Nat) (h : is_binary c = true) :
    ∃ q : Int, prec (Op.Binary c pos) = PRes.ok q ∧ 1 ≤ q := by
  have hc : c = '+' ∨ c = '-' ∨ c = '*' ∨ c = '/' ∨ c = '^' := by
    simpa [is_binary, OPS_BINARY] using h
  rcases hc with rfl | rfl | rfl | rfl | rfl
  · exact ⟨1, rfl, by omega⟩
  · exact ⟨1, rfl, by omega⟩
  · exact ⟨2, rfl, by omega⟩
  · exact ⟨2, rfl, by omega⟩
  · exact ⟨4, rfl, by omega⟩

theorem is_pre_char {c : Char} (h : is_pre c = true) : c = '-' := by
  simpa [is_pre, OPS_PRE] using h

theorem sy_inv : ∀ n : Nat,
    (∀ (s : SYState) (R : List Op) (p : Nat), s.op_stack = Op.Sentinel p :: R →
      ResSpec (parse_e n s)
        (fun s2 => s2.op_stack = Op.Sentinel p :: R ∧ stackQ s2 = stackQ s + 1)) ∧
    (∀ (s : SYState) (B R : List Op) (p : Nat), s.op_stack = B ++ Op.Sentinel p :: R →
      noSentinel B →
      ResSpec (parse_e_loop n s)
        (fun s2 => ∃ B2, s2.op_stack = B2 ++ Op.Sentinel p :: R ∧ noSentinel B2 ∧
          stackQ s2 = stackQ s)) ∧
    (∀ (s : SYState) (B R : List Op) (p : Nat), s.op_stack = B ++ Op.Sentinel p :: R →
      noSentinel B →
      ResSpec (parse_p n s)
        (fun s2 => ∃ B2, s2.op_stack = B2 ++ Op.Sentinel p :: R ∧ noSentinel B2 ∧
          stackQ s2 = stackQ s + 1)) := by
  intro n
  induction n with
  | zero =>
    exact ⟨fun s R p hs => ResSpec_nofuel, fun s B R p hs hB => ResSpec_nofuel,
      fun s B R p hs hB => ResSpec_nofuel⟩
  | succ n ih =>
    obtain ⟨ihE, ihL, ihP⟩ := ih
    refine ⟨?_, ?_, ?_⟩
    · intro s R p hs
      simp only [parse_e]
      apply ResSpec_bind (ihP s [] R p (by simpa using hs) noSentinel_nil)
      rintro s1 heq1 ⟨B1, ho1, hB1, hQ1⟩
      apply ResSpec_bind (ihL s1 B1 R p ho1 hB1)
      rintro s2 heq2 ⟨B2, ho2, hB2, hQ2⟩
      refine ResSpec_mono (unwind_spec (Nat.succ n) s2 B2 R p ho2 hB2) ?_
      rintro s3 ⟨a, b⟩
      exact ⟨a, by rw [b, hQ2, hQ1]⟩
    · intro s B R p hs hB
      rcases hnx : s.next with ⟨typ, pos⟩
      cases typ with
      | Number v =>
        simp only [parse_e_loop, hnx]
        exact ResSpec_ok ⟨B, hs, hB, rfl⟩
      | Ident name =>
        simp only [parse_e_loop, hnx]
        exact ResSpec_ok ⟨B, hs, hB, rfl⟩
      | End =>
        simp only [parse_e_loop, hnx]
        exact ResSpec_ok ⟨B, hs, hB, rfl⟩
      | OpSingle c =>
        simp only [parse_e_loop, hnx]
        by_cases hbin : is_binary c = true
        · rw [if_pos hbin]
          obtain ⟨qv, hqv, hqv1⟩ := prec_binary pos hbin
          apply ResSpec_bind (push_spec (Nat.succ n) (Op.Binary c pos) qv hqv hqv1 s B R p hs hB)
          rintro s1 heq1 ⟨B2, ho1, hB2, hQ1⟩
          apply ResSpec_bind (ihP (consume s1) (Op.Binary c pos :: B2) R p
            (by rw [consume_op_stack, ho1, List.cons_append]) (noSentinel_cons (fun q' hc => Op.noConfusion hc) hB2))
          rintro s2 heq2 ⟨B4, ho2, hB4, hQ2⟩
          refine ResSpec_mono (ihL s2 B4 R p ho2 hB4) ?_
          rintro s3 ⟨B5, a, b, c'⟩
          refine ⟨B5, a, b, ?_⟩
          rw [c', hQ2, stackQ_consume, hQ1]
          simp [binInc]
        · rw [if_neg hbin]
          exact ResSpec_ok ⟨B, hs, hB, rfl⟩
    · intro s B R p hs hB
      rcases hnx : s.next with ⟨typ, pos⟩
      cases typ with
      | Number v =>
        simp only [parse_p, hnx]
        apply ResSpec_ok
        refine ⟨B, hs, hB, ?_⟩
        simp only [stackQ, consume_exp_stack, consume_op_stack, List.length_cons]
        push_cast
        ring
      | Ident name =>
        simp only [parse_p, hnx]
        apply ResSpec_ok
        refine ⟨B, hs, hB, ?_⟩
        simp only [stackQ, consume_exp_stack, consume_op_stack, List.length_cons]
        push_cast
        ring
      | End =>
        simp only [parse_p, hnx]
        exact ResSpec_err
      | OpSingle c =>
        simp only [parse_p, hnx]
        by_cases hpar : c = '('
        · rw [if_pos hpar]
          have hos2 : ({ consume s with
              op_stack := Op.Sentinel pos :: (consume s).op_stack }).op_stack =
              Op.Sentinel pos :: (B ++ Op.Sentinel p :: R) := by
            show Op.Sentinel pos :: s.op_stack = Op.Sentinel pos :: (B ++ Op.Sentinel p :: R)
            rw [hs]
          apply ResSpec_bind (ihE _ (B ++ Op.Sentinel p :: R) pos hos2)
          rintro s3 heq3 ⟨ho3, hQ3⟩
          have hQ3' : stackQ s3 = stackQ s + 1 := hQ3
          have hbc3 : binCount s3.op_stack = binCount s.op_stack := by
            rw [ho3, binCount_sentinel, hs]
          have hlen3 : s3.exp_stack.length = s.exp_stack.length + 1 := by
            have h5 := hQ3'
            simp only [stackQ, hbc3] at h5
            omega
          rcases expect_cases (TokenType.OpSingle ')') s3 with hex | ⟨e, hex⟩
          · rw [hex, pbind_ok]
            cases hE3 : s3.exp_stack with
            | nil => rw [hE3] at hlen3; simp at hlen3
            | cons t exps =>
              simp only [consume_op_stack, consume_exp_stack, ho3, hE3]
              apply ResSpec_ok
              refine ⟨B, rfl, hB, ?_⟩
              have hlen : exps.length + 1 = s.exp_stack.length + 1 := by
                rw [hE3] at hlen3
                simpa using hlen3
              simp only [stackQ, List.length_cons]
              rw [show binCount (B ++ Op.Sentinel p :: R) = binCount s.op_stack by rw [hs]]
              omega
          · rw [hex, pbind_err]
            exact ResSpec_err
        · rw [if_neg hpar]
          by_cases hpre : is_pre c = true
          · rw [if_pos hpre]
            have hc := is_pre_char hpre
            have hq : prec (Op.Pre c pos) = PRes.ok 3 := by rw [hc]; rfl
            apply ResSpec_bind (push_spec (Nat.succ n) (Op.Pre c pos) 3 hq (by omega) s B R p hs hB)
            rintro s1 heq1 ⟨B2, ho1, hB2, hQ1⟩
            refine ResSpec_mono (ihP (consume s1) (Op.Pre c pos :: B2) R p
              (by rw [consume_op_stack, ho1, List.cons_append])
              (noSentinel_cons (fun q' hc' => Op.noConfusion hc') hB2)) ?_
            rintro s2 ⟨B4, a, b, c'⟩
            refine ⟨B4, a, b, ?_⟩
            rw [c', stackQ_consume, hQ1]
            simp [binInc]
          · rw [if_neg hpre]
            exact ResSpec_err

theorem parseTokens_not_cf : ∀ (fuel : Nat) (toks : List Token) (pc : Panic),
    parseTokens fuel toks = PRes.panicked pc → isCheckFailure pc = false := by
  intro fuel toks pc h
  unfold parseTokens parseSY at h
  have hop : (initState toks).op_stack = Op.Sentinel u32MAX :: [] := by
    cases toks <;> rfl
  have hexp : (initState toks).exp_stack = [] := by cases toks <;> rfl
  have hE := (sy_inv fuel).1 (initState toks) [] u32MAX hop
  cases h1 : parse_e fuel (initState toks) with
  | ok s1 =>
    rw [h1, pbind_ok] at h
    obtain ⟨ho1, hQ1⟩ := hE.1 s1 h1
    have hQ0 : stackQ (initState toks) = 0 := by
      simp [stackQ, hop, hexp, binCount]
    have hbc1 : binCount s1.op_stack = 0 := by rw [ho1]; rfl
    have hlen1 : s1.exp_stack.length = 1 := by
      have h5 := hQ1
      rw [hQ0] at h5
      simp only [stackQ, hbc1] at h5
      omega
    have hol1 : s1.op_stack.length = 1 := by rw [ho1]; rfl
    rcases expect_cases TokenType.End s1 with hex | ⟨e, hex⟩
    · rw [hex, pbind_ok] at h
      simp only [consume_exp_stack, consume_op_stack] at h
      rw [if_pos hlen1, if_pos hol1] at h
      cases hE1 : s1.exp_stack with
      | nil => rw [hE1] at hlen1; simp at hlen1
      | cons t tl =>
        rw [hE1] at h
        exact PRes.noConfusion h
    · rw [hex, pbind_err] at h
      exact PRes.noConfusion h
  | err e => rw [h1, pbind_err] at h; exact PRes.noConfusion h
  | panicked pc1 =>
    rw [h1, pbind_panicked] at h
    injection h with h4
    exact h4 ▸ hE.2 pc1 h1
  | nofuel => rw [h1, pbind_nofuel] at h; exact PRes.noConfusion h

/-- C1 counterexample: `parse "-2^2"` does not return the claimed tree
`Binary('^', Prefix('-', Number 2), Number 2)` (i.e. `(-2)^2`): it returns the
prefix-rooted tree `Prefix('-', Binary('^', Number 2, Number 2))` (i.e.
`-(2^2)`), whose position-erased shape differs from the claimed shape. -/
theorem C1_counterexample :
    parse 100 "-2^2" =
      PRes.ok (AstNode.Pre '-'
        (AstNode.Binary '^' (AstNode.Number 2 1) (AstNode.Number 2 3) 2) 0)
    ∧ parsedShape 100 "-2^2" =
        some (Sh.pre '-' (Sh.bin '^' (Sh.num 2) (Sh.num 2)))
    ∧ parsedShape 100 "-2^2" ≠
        some (Sh.bin '^' (Sh.pre '-' (Sh.num 2)) (Sh.num 2)) :=
  ⟨by decide, by decide, by decide⟩

/-- C1 (amended): `parse "-2^2"` succeeds and returns
`Prefix('-', Binary('^', Number 2, Number 2))`, i.e. `-(2^2)`: with the
source's precedence values (prefix `'-'` = 3, binary `'^'` = 4) the pushed
`'^'` does not pop the `Prefix` operator, so the prefix minus applies last. -/
theorem C1_theorem :
    parse 100 "-2^2" =
      PRes.ok (AstNode.Pre '-'
        (AstNode.Binary '^' (AstNode.Number 2 1) (AstNode.Number 2 3) 2) 0)
    ∧ prec (Op.Pre '-' 0) = PRes.ok 3
    ∧ prec (Op.Binary '^' 2) = PRes.ok 4
    ∧ has_greater_prec (Op.Pre '-' 0) (Op.Binary '^' 2) = PRes.ok false :=
  ⟨by decide, by decide, by decide, by decide⟩

/-- C2: the claim says `parse "--x"` succeeds with
`Prefix('-', Prefix('-', Identifier x))` for every identifier `x`, as the
source's own grammar comment (`P --> v | "(" E ")" | U P`, `U --> "-"`)
promises.  The code instead panics: pushing the second `Prefix('-')` with a
`Prefix('-')` of equal precedence 3 on the stack makes `has_greater_prec`
call `assoc` on the stacked `Prefix` operator, whose
`panic!("Operator .. does not have associativity")` fires — for every pair of
leading `'-'` tokens, whatever follows. -/
theorem C2_theorem :
    parse 100 "--x" = PRes.panicked (Panic.assocNone (Op.Pre '-' 0))
    ∧ ∀ (n p1 p2 : Nat) (rest : List Token),
        parseTokens (n + 3)
          (⟨TokenType.OpSingle '-', p1⟩ :: ⟨TokenType.OpSingle '-', p2⟩ :: rest) =
          PRes.panicked (Panic.assocNone (Op.Pre '-' p1)) :=
  ⟨by decide, fun n p1 p2 rest => rfl⟩

/-- C3: for every input text (and any fuel), the parser's internal
consistency checks hold: the run never ends in the Sentinel arm of
`pop_operator` and never in one of the two `assert_eq!` failures of `parse` —
equivalently, whenever the assertions are reached both stacks have exactly
one element.  (Other panics — `assoc`/`prec` unreachable-operator panics and
expression-stack underflow `unwrap`s — are not among these checks and some
are in fact reachable, e.g. on `"--x"`.) -/
theorem C3_theorem : ∀ (fuel : Nat) (text : String) (pc : Panic),
    parse fuel text = PRes.panicked pc → isCheckFailure pc = false :=
  fun fuel text pc h => parseTokens_not_cf fuel (tokenize text) pc h

/-- C3 witness: the concrete panicking run `parse "--x"` panics with the
`assoc` panic, which is not one of the internal-consistency checks. -/
theorem C3_witness :
    parse 100 "--x" = PRes.panicked (Panic.assocNone (Op.Pre '-' 0))
    ∧ isCheckFailure (Panic.assocNone (Op.Pre '-' 0)) = false :=
  ⟨by decide, C3_theorem 100 "--x" (Panic.assocNone (Op.Pre '-' 0)) (by decide)⟩

/-- C4: `parse "2^3^2"` yields the right-associated tree `2^(3^2)`, and a
`'^'` being pushed never pops an equal-precedence `'^'` already on the stack
(`has_greater_prec` is false for the `'^'`/`'^'` pair). -/
theorem C4_theorem :
    parse 100 "2^3^2" =
      PRes.ok (AstNode.Binary '^' (AstNode.Number 2 0)
        (AstNode.Binary '^' (AstNode.Number 3 2) (AstNode.Number 2 4) 3) 1)
    ∧ has_greater_prec (Op.Binary '^' 1) (Op.Binary '^' 3) = PRes.ok false :=
  ⟨by decide, by decide⟩

/-- C5: `parse "8-3-2"` yields the left-associated tree `(8-3)-2`, and an
equal-precedence left-associative `'-'` on the stack is popped before the new
`'-'` is pushed (`has_greater_prec` is true for the `'-'`/`'-'` pair). -/
theorem C5_theorem :
    parse 100 "8-3-2" =
      PRes.ok (AstNode.Binary '-'
        (AstNode.Binary '-' (AstNode.Number 8 0) (AstNode.Number 3 2) 1)
        (AstNode.Number 2 4) 3)
    ∧ has_greater_prec (Op.Binary '-' 1) (Op.Binary '-' 3) = PRes.ok true :=
  ⟨by decide, by decide⟩

/-- C6: `parse "2+3*4"` yields `2+(3*4)`: multiplication binds tighter than
addition. -/
theorem C6_theorem :
    parse 100 "2+3*4" =
      PRes.ok (AstNode.Binary '+' (AstNode.Number 2 0)
        (AstNode.Binary '*' (AstNode.Number 3 2) (AstNode.Number 4 4) 3) 1) := by
  decide

/-- C7: `parse "(3+4)*5"` yields `Binary('*', Parenthesized(3+4), 5)`: the
group is wrapped in a `Parens` node carrying the `'('` position (0), and
grouping overrides precedence. -/
theorem C7_theorem :
    parse 100 "(3+4)*5" =
      PRes.ok (AstNode.Binary '*'
        (AstNode.Parens (AstNode.Binary '+' (AstNode.Number 3 1) (AstNode.Number 4 3) 2) 0)
        (AstNode.Number 5 6) 5) := by
  decide

/-- C8: `parse "3+4 5"` fails: after the full expression `3+4`, the lookahead
is the trailing `Number 5` at position 4 rather than `End`, and the final
`expect(End)` turns that into a `ParseError` naming expected `End`, the
actual token type, and its position. -/
theorem C8_theorem :
    parse 100 "3+4 5" =
      PRes.err (ParseError.Expected TokenType.End (TokenType.Number 5) 4) := by
  decide

/-- C9 counterexample: the failure raised when a single-char operator that is
not a recognized unary prefix appears in primary position does NOT carry the
token's source position: the offending `'+'` sits at position 0 in the first
run and at position 7 (resp. 1, via the leading blank in `" +"`) in the
others, yet all four runs return the identical error value
`ExpectedUnary '+'`, so no position can be recovered from the payload. -/
theorem C9_counterexample :
    parseTokens 100 [⟨TokenType.OpSingle '+', 0⟩, ⟨TokenType.End, 1⟩] =
      PRes.err (ParseError.ExpectedUnary '+')
    ∧ parseTokens 100 [⟨TokenType.OpSingle '+', 7⟩, ⟨TokenType.End, 9⟩] =
      PRes.err (ParseError.ExpectedUnary '+')
    ∧ parse 100 "+" = PRes.err (ParseError.ExpectedUnary '+')
    ∧ parse 100 " +" = PRes.err (ParseError.ExpectedUnary '+') :=
  ⟨by decide, by decide, by decide, by decide⟩

/-- C9 (amended): syntactic failures carry what the corresponding `format!`
interpolates: `expect` failures carry the expected construct, the actual
token type and its position; the unexpected-token failure carries the whole
actual token (position included); but the unrecognized-unary-prefix failure
carries only the expected construct and the actual char — not its position. -/
theorem C9_theorem :
    (∀ (tt : TokenType) (s : SYState), s.next.typ ≠ tt →
      expect tt s = PRes.err (ParseError.Expected tt s.next.typ s.next.pos))
    ∧ (∀ (n : Nat) (rest : List Token) (c : Char) (pos : Nat) (ops : List Op)
        (exps : List AstNode), c ≠ '(' → is_pre c = false →
        parse_p (Nat.succ n) ⟨rest, ⟨TokenType.OpSingle c, pos⟩, ops, exps⟩ =
          PRes.err (ParseError.ExpectedUnary c))
    ∧ (∀ (n : Nat) (rest : List Token) (pos : Nat) (ops : List Op)
        (exps : List AstNode),
        parse_p (Nat.succ n) ⟨rest, ⟨TokenType.End, pos⟩, ops, exps⟩ =
          PRes.err (ParseError.UnexpectedToken ⟨TokenType.End, pos⟩)) := by
  refine ⟨?_, ?_, ?_⟩
  · intro tt s h
    unfold expect
    rw [if_neg h]
  · intro n rest c pos ops exps hc hp
    simp only [parse_p]
    rw [if_neg hc, if_neg (by simp [hp])]
  · intro n rest pos ops exps
    rfl

/-- C9 witness: the three error shapes at concrete states: `expect End` with
lookahead `Number 5` at position 4; `parse_p` at a `'+'` in primary position;
`parse_p` at `End` at position 7. -/
theorem C9_witness :
    expect TokenType.End w9s1 =
      PRes.err (ParseError.Expected TokenType.End (TokenType.Number 5) 4)
    ∧ parse_p 5 w9s2 = PRes.err (ParseError.ExpectedUnary '+')
    ∧ parse_p 5 w9s3 = PRes.err (ParseError.UnexpectedToken ⟨TokenType.End, 7⟩) :=
  ⟨C9_theorem.1 TokenType.End w9s1 (by decide),
   C9_theorem.2.1 4 [] '+' 0 [Op.Sentinel u32MAX] [] (by decide) (by decide),
   C9_theorem.2.2 4 [] 7 [Op.Sentinel u32MAX] []⟩

/-- C10: whenever the very first token delivered by the lexer is `End` (the
empty string tokenizes to exactly that), `parse` returns the
"Unexpected token" `ParseError` from `parse_p` — it neither succeeds nor
panics — for any continuation of the stream and any sufficient fuel. -/
theorem C10_theorem :
    (∀ (n : Nat) (rest : List Token) (p : Nat),
      parseTokens (n + 2) (⟨TokenType.End, p⟩ :: rest) =
        PRes.err (ParseError.UnexpectedToken ⟨TokenType.End, p⟩))
    ∧ parse 100 "" = PRes.err (ParseError.UnexpectedToken ⟨TokenType.End, 0⟩) :=
  ⟨fun n rest p => rfl, by decide⟩
